import Mathlib

/-!
Shallow embedding of the Xiangqi web application core (rules engine, board
replay, session state machine operations, and the document-sync blob merge),
translated from the TypeScript sources, together with theorems settling the
frozen claims about the specification.
-/

set_option maxHeartbeats 1000000

namespace Xiangqi

/-! ### Data model (src types / constants.ts) -/

inductive Side where
  | RED
  | BLACK
  deriving DecidableEq, Repr

def Side.opp : Side → Side
  | .RED => .BLACK
  | .BLACK => .RED

inductive PieceType where
  | GENERAL
  | ADVISOR
  | ELEPHANT
  | HORSE
  | CHARIOT
  | CANNON
  | SOLDIER
  deriving DecidableEq, Repr

structure Position where
  x : Int
  y : Int
  deriving DecidableEq, Repr

structure Piece where
  id : String
  type : PieceType
  side : Side
  position : Position
  dead : Bool := false
  deriving DecidableEq, Repr

/-- A move record; `src`/`dst` stand for the TypeScript source and destination
fields (`from` is a Lean keyword). -/
structure Move where
  src : Position
  dst : Position
  capturedId : Option String := none
  ts : Int := 0
  deriving DecidableEq, Repr

structure UserProfile where
  id : String
  name : String
  deriving DecidableEq, Repr

structure PlayerState where
  id : String
  name : String
  timeouts : Nat
  joined : Bool
  deriving DecidableEq, Repr

structure GamePlayers where
  red : Option PlayerState
  black : Option PlayerState
  spectators : List UserProfile
  deriving DecidableEq, Repr

structure GameMeta where
  last_move_ts : Int
  undo_requester : Option Side
  helper_id : Option String
  deriving DecidableEq, Repr

structure OnlinePayload where
  pieces : List Piece
  turn : Side
  last_move : Option Move
  history : List Move
  winner : Option Side
  players : GamePlayers
  meta : GameMeta
  deriving DecidableEq, Repr

/-- constants.ts `createPiece`. -/
def createPiece (id : String) (type : PieceType) (side : Side) (x y : Int) : Piece :=
  { id := id, type := type, side := side, position := { x := x, y := y }, dead := false }

/-- constants.ts `INITIAL_PIECES`: the canonical initial layout, 32 pieces. -/
def INITIAL_PIECES : List Piece := [
  createPiece "r_rook_1" .CHARIOT .RED 0 9,
  createPiece "r_horse_1" .HORSE .RED 1 9,
  createPiece "r_elephant_1" .ELEPHANT .RED 2 9,
  createPiece "r_advisor_1" .ADVISOR .RED 3 9,
  createPiece "r_general" .GENERAL .RED 4 9,
  createPiece "r_advisor_2" .ADVISOR .RED 5 9,
  createPiece "r_elephant_2" .ELEPHANT .RED 6 9,
  createPiece "r_horse_2" .HORSE .RED 7 9,
  createPiece "r_rook_2" .CHARIOT .RED 8 9,
  createPiece "r_cannon_1" .CANNON .RED 1 7,
  createPiece "r_cannon_2" .CANNON .RED 7 7,
  createPiece "r_pawn_1" .SOLDIER .RED 0 6,
  createPiece "r_pawn_2" .SOLDIER .RED 2 6,
  createPiece "r_pawn_3" .SOLDIER .RED 4 6,
  createPiece "r_pawn_4" .SOLDIER .RED 6 6,
  createPiece "r_pawn_5" .SOLDIER .RED 8 6,
  createPiece "b_rook_1" .CHARIOT .BLACK 0 0,
  createPiece "b_horse_1" .HORSE .BLACK 1 0,
  createPiece "b_elephant_1" .ELEPHANT .BLACK 2 0,
  createPiece "b_advisor_1" .ADVISOR .BLACK 3 0,
  createPiece "b_general" .GENERAL .BLACK 4 0,
  createPiece "b_advisor_2" .ADVISOR .BLACK 5 0,
  createPiece "b_elephant_2" .ELEPHANT .BLACK 6 0,
  createPiece "b_horse_2" .HORSE .BLACK 7 0,
  createPiece "b_rook_2" .CHARIOT .BLACK 8 0,
  createPiece "b_cannon_1" .CANNON .BLACK 1 2,
  createPiece "b_cannon_2" .CANNON .BLACK 7 2,
  createPiece "b_pawn_1" .SOLDIER .BLACK 0 3,
  createPiece "b_pawn_2" .SOLDIER .BLACK 2 3,
  createPiece "b_pawn_3" .SOLDIER .BLACK 4 3,
  createPiece "b_pawn_4" .SOLDIER .BLACK 6 3,
  createPiece "b_pawn_5" .SOLDIER .BLACK 8 3]

/-! ### Rules engine and board replay (src/utils/gameLogic) -/

/-- `getPieceAt`: first live piece at the given board position. -/
def getPieceAt (pieces : List Piece) (pos : Position) : Option Piece :=
  pieces.find? (fun p => !p.dead && decide (p.position = pos))

/-- In-place list update at an index (models `currentPieces[i] = ...`). -/
def listModify (l : List Piece) (i : Nat) (f : Piece → Piece) : List Piece :=
  match l, i with
  | [], _ => []
  | a :: t, 0 => f a :: t
  | a :: t, n + 1 => a :: listModify t n f

/-- One step of `reconstructBoard`'s loop: relocate the live piece found at the
move's source (skipping the move if there is none) and mark the recorded
captured identity dead at the off-board sentinel. -/
def applyMove (ps : List Piece) (m : Move) : List Piece :=
  match ps.findIdx? (fun p => !p.dead && decide (p.position = m.src)) with
  | none => ps
  | some i =>
    let ps1 := listModify ps i (fun p => { p with position := m.dst })
    match m.capturedId with
    | none => ps1
    | some cid =>
      match ps1.findIdx? (fun p => decide (p.id = cid)) with
      | none => ps1
      | some j => listModify ps1 j (fun p => { p with dead := true, position := ⟨-1, -1⟩ })

/-- `reconstructBoard`: replay a history from the canonical initial layout. -/
def reconstructBoard (history : List Move) : List Piece :=
  history.foldl applyMove INITIAL_PIECES

/-- `isWithinBounds`. -/
def isWithinBounds (pos : Position) : Bool :=
  decide (0 ≤ pos.x) && decide (pos.x ≤ 8) && decide (0 ≤ pos.y) && decide (pos.y ≤ 9)

/-- The `while` loop of `checkLinearPath`, with explicit fuel: `none` models the
loop failing, within the given number of iterations, ever reaching the
destination (the loop diverges exactly on inputs the program never passes). -/
def lpGo (sx sy tx ty : Int) (ps : List Piece) : Nat → Int → Int → Option Nat
  | 0, cx, cy => if cx = tx ∧ cy = ty then some 0 else none
  | n + 1, cx, cy =>
    if cx = tx ∧ cy = ty then some 0
    else
      (lpGo sx sy tx ty ps n (cx + sx) (cy + sy)).map
        (fun c => (if (getPieceAt ps ⟨cx, cy⟩).isSome then 1 else 0) + c)

/-- `checkLinearPath`: count pieces strictly between two points, walking one
signed step at a time.  The fuel `|Δx| + |Δy|` always suffices for the aligned
calls the program makes (claim C9). -/
def checkLinearPath (f t : Position) (ps : List Piece) : Option Nat :=
  lpGo (t.x - f.x).sign (t.y - f.y).sign t.x t.y ps
    ((t.x - f.x).natAbs + (t.y - f.y).natAbs)
    (f.x + (t.x - f.x).sign) (f.y + (t.y - f.y).sign)

/-- The Horse's blocking "leg" cell, as computed in the HORSE case of
`isValidMove`. -/
def horseLeg (piece : Piece) (dest : Position) : Position :=
  if (dest.x - piece.position.x).natAbs = 2 then
    ⟨piece.position.x + (dest.x - piece.position.x).sign, piece.position.y⟩
  else
    ⟨piece.position.x, piece.position.y + (dest.y - piece.position.y).sign⟩

/-- `isValidMove`: the move-legality check, case by piece kind. -/
def isValidMove (piece : Piece) (dest : Position) (pieces : List Piece) : Bool :=
  if isWithinBounds dest = false then false
  else if (getPieceAt pieces dest).map Piece.side = some piece.side then false
  else if (dest.x - piece.position.x).natAbs = 0 ∧ (dest.y - piece.position.y).natAbs = 0 then false
  else
    match piece.type with
    | .GENERAL =>
      if (dest.x - piece.position.x).natAbs + (dest.y - piece.position.y).natAbs ≠ 1 then false
      else if piece.side = .RED then
        if dest.y < 7 ∨ dest.x < 3 ∨ 5 < dest.x then false else true
      else
        if 2 < dest.y ∨ dest.x < 3 ∨ 5 < dest.x then false else true
    | .ADVISOR =>
      if ¬((dest.x - piece.position.x).natAbs = 1 ∧ (dest.y - piece.position.y).natAbs = 1) then false
      else if piece.side = .RED then
        if dest.y < 7 ∨ dest.x < 3 ∨ 5 < dest.x then false else true
      else
        if 2 < dest.y ∨ dest.x < 3 ∨ 5 < dest.x then false else true
    | .ELEPHANT =>
      if ¬((dest.x - piece.position.x).natAbs = 2 ∧ (dest.y - piece.position.y).natAbs = 2) then false
      else if piece.side = .RED ∧ dest.y < 5 then false
      else if piece.side = .BLACK ∧ 4 < dest.y then false
      else if (getPieceAt pieces ⟨piece.position.x + (dest.x - piece.position.x) / 2,
                                  piece.position.y + (dest.y - piece.position.y) / 2⟩).isSome then false
      else true
    | .HORSE =>
      if ¬(((dest.x - piece.position.x).natAbs = 1 ∧ (dest.y - piece.position.y).natAbs = 2) ∨
           ((dest.x - piece.position.x).natAbs = 2 ∧ (dest.y - piece.position.y).natAbs = 1)) then false
      else if (getPieceAt pieces (horseLeg piece dest)).isSome then false
      else true
    | .CHARIOT =>
      if (dest.x - piece.position.x).natAbs ≠ 0 ∧ (dest.y - piece.position.y).natAbs ≠ 0 then false
      else decide (checkLinearPath piece.position dest pieces = some 0)
    | .CANNON =>
      if (dest.x - piece.position.x).natAbs ≠ 0 ∧ (dest.y - piece.position.y).natAbs ≠ 0 then false
      else if (getPieceAt pieces dest).isSome then
        decide (checkLinearPath piece.position dest pieces = some 1)
      else
        decide (checkLinearPath piece.position dest pieces = some 0)
    | .SOLDIER =>
      if piece.side = .RED then
        if 0 < dest.y - piece.position.y then false
        else if 4 < dest.y then
          decide (dest.x - piece.position.x = 0 ∧ dest.y - piece.position.y = -1)
        else
          decide (((dest.x - piece.position.x).natAbs = 1 ∧ dest.y - piece.position.y = 0) ∨
                  (dest.x - piece.position.x = 0 ∧ dest.y - piece.position.y = -1))
      else
        if dest.y - piece.position.y < 0 then false
        else if dest.y < 5 then
          decide (dest.x - piece.position.x = 0 ∧ dest.y - piece.position.y = 1)
        else
          decide (((dest.x - piece.position.x).natAbs = 1 ∧ dest.y - piece.position.y = 0) ∨
                  (dest.x - piece.position.x = 0 ∧ dest.y - piece.position.y = 1))

/-! ### Session state machine operations (src/App.tsx) -/

/-- App.tsx `executeMove`, as the pure transition it performs on the logical
session state (local board update plus the partial payload pushed online:
relocate/capture, flip turn, append history, set winner on General capture,
stamp the clock anchor, clear the undo request and the helper delegation).
`now` stands for `Date.now()`. -/
def executeMove (st : OnlinePayload) (piece : Piece) (dest : Position) (now : Int) :
    OnlinePayload :=
  let targetPiece := getPieceAt st.pieces dest
  let nextTurn := st.turn.opp
  let move : Move :=
    { src := piece.position, dst := dest, capturedId := targetPiece.map Piece.id, ts := now }
  let newPieces := st.pieces.map (fun p =>
    if p.id = piece.id then { p with position := dest }
    else
      match targetPiece with
      | some t => if p.id = t.id then { p with dead := true, position := ⟨-1, -1⟩ } else p
      | none => p)
  let newWinner := if targetPiece.map Piece.type = some PieceType.GENERAL then some st.turn
                   else st.winner
  { st with
    pieces := newPieces
    turn := nextTurn
    last_move := some move
    history := st.history ++ [move]
    winner := newWinner
    meta := { last_move_ts := now, undo_requester := none, helper_id := none } }

/-- App.tsx `respondToUndo`: decline clears the pending marker; accept pops the
last history entry, replays the shortened history, flips the turn back, clears
the winner and the marker, and restamps the clock anchor. -/
def respondToUndo (accept : Bool) (st : OnlinePayload) (now : Int) : OnlinePayload :=
  if accept = false then
    { st with meta := { st.meta with undo_requester := none } }
  else
    let newHistory := st.history.dropLast
    let prevPieces := reconstructBoard newHistory
    let prevTurn := st.turn.opp
    { st with
      pieces := prevPieces
      history := newHistory
      turn := prevTurn
      winner := none
      last_move := newHistory.getLast?
      meta := { st.meta with undo_requester := none, last_move_ts := now } }

/-- App.tsx `handleTimeout`: increment the timeout counter of the side to move
(when seated), declare the opposing side winner once that counter is at least
3, flip the turn and restamp the clock anchor. -/
def handleTimeout (st : OnlinePayload) (now : Int) : OnlinePayload :=
  let nextTurn := st.turn.opp
  let updatedRed :=
    if st.turn = Side.RED then
      st.players.red.map (fun r => { r with timeouts := r.timeouts + 1 })
    else st.players.red
  let updatedBlack :=
    if st.turn = Side.BLACK then
      st.players.black.map (fun b => { b with timeouts := b.timeouts + 1 })
    else st.players.black
  let newWinner : Option Side :=
    if st.turn = Side.RED then
      match updatedRed with
      | some r => if 3 ≤ r.timeouts then some Side.BLACK else none
      | none => none
    else
      match updatedBlack with
      | some b => if 3 ≤ b.timeouts then some Side.RED else none
      | none => none
  { st with
    turn := nextTurn
    players := { st.players with red := updatedRed, black := updatedBlack }
    winner := newWinner
    meta := { st.meta with last_move_ts := now } }

inductive PlayerRole where
  | player (s : Side)
  | spectator
  deriving DecidableEq, Repr

/-- App.tsx `handleJoinRole`, restricted to its effect on the players record:
a seat join overwrites the seat with the caller's profile (keeping the seat's
accumulated timeout count); a spectator join appends the profile unless the
identity is already in the spectator set. -/
def handleJoinRole (players : GamePlayers) (user : UserProfile) (role : PlayerRole) :
    GamePlayers :=
  match role with
  | .player Side.RED =>
    { players with
      red := some { id := user.id, name := user.name,
                    timeouts := match players.red with | some r => r.timeouts | none => 0,
                    joined := true } }
  | .player Side.BLACK =>
    { players with
      black := some { id := user.id, name := user.name,
                      timeouts := match players.black with | some b => b.timeouts | none => 0,
                      joined := true } }
  | .spectator =>
    if players.spectators.any (fun s => decide (s.id = user.id)) then players
    else { players with spectators := players.spectators ++ [user] }

/-- The seat-occupancy guard of App.tsx: the lobby disables the RED (resp.
BLACK) seat button exactly when that seat is held by a different identity
(`disabled={!!onlineData.players.red && !isMyRed}`). -/
def seatTakenByOther (players : GamePlayers) (user : UserProfile) (role : PlayerRole) : Bool :=
  match role with
  | .player Side.RED =>
    match players.red with
    | some r => decide (r.id ≠ user.id)
    | none => false
  | .player Side.BLACK =>
    match players.black with
    | some b => decide (b.id ≠ user.id)
    | none => false
  | .spectator => false

/-- The join operation as exposed by the client: `handleJoinRole` behind the
UI's seat-occupancy guard. -/
def joinSeatGated (players : GamePlayers) (user : UserProfile) (role : PlayerRole) :
    GamePlayers :=
  if seatTakenByOther players user role then players else handleJoinRole players user role

/-! ### Document sync protocol (src/services/supabaseService) -/

/-- The packed blob stored in the `pieces` JSONB column. -/
structure PackedBlob where
  board : List Piece
  history : List Move
  players : GamePlayers
  meta : GameMeta
  deriving DecidableEq, Repr

/-- The possible shapes of the previously stored `pieces` column value: the
legacy bare board array, the packed object (any subset of its keys present),
or anything else (null / non-object). -/
inductive PiecesCol where
  | legacy (board : List Piece)
  | packed (board : Option (List Piece)) (history : Option (List Move))
           (players : Option GamePlayers) (meta : Option GameMeta)
  | invalid
  deriving DecidableEq, Repr

/-- A partial state update (`Partial<OnlinePayload>`): `none` models an absent
field.  `last_move` and `winner` are nullable in the payload, hence doubly
optional. -/
structure StatePatch where
  pieces : Option (List Piece) := none
  turn : Option Side := none
  last_move : Option (Option Move) := none
  history : Option (List Move) := none
  winner : Option (Option Side) := none
  players : Option GamePlayers := none
  meta : Option GameMeta := none
  deriving DecidableEq, Repr

def emptyPlayers : GamePlayers := { red := none, black := none, spectators := [] }

def defaultMeta (now : Int) : GameMeta :=
  { last_move_ts := now, undo_requester := none, helper_id := none }

/-- `packPiecesColumn`: rebuild the packed blob from defaults, then the
previously stored column value, then the fields present in the partial
update. -/
def packPiecesColumn (state : StatePatch) (cur : PiecesCol) (now : Int) : PackedBlob :=
  let base : PackedBlob :=
    { board := [], history := [], players := emptyPlayers, meta := defaultMeta now }
  let base :=
    match cur with
    | .legacy b => { base with board := b }
    | .packed b h p m =>
      { board := b.getD base.board, history := h.getD base.history,
        players := p.getD base.players, meta := m.getD base.meta }
    | .invalid => base
  { board := state.pieces.getD base.board
    history := state.history.getD base.history
    players := state.players.getD base.players
    meta := state.meta.getD base.meta }

/-- A stored `games` row: the blob column plus the scalar columns. -/
structure GameRow where
  piecesCol : PiecesCol
  turn : Side
  last_move : Option Move
  winner : Option Side
  deriving DecidableEq, Repr

/-- `updateGameState`: re-pack the blob column from the freshly fetched stored
value, and update a scalar column only when the corresponding field is present
in the partial update. -/
def updateGameState (state : StatePatch) (row : GameRow) (now : Int) : GameRow :=
  let packed := packPiecesColumn state row.piecesCol now
  { piecesCol := .packed (some packed.board) (some packed.history)
      (some packed.players) (some packed.meta)
    turn := state.turn.getD row.turn
    last_move := state.last_move.getD row.last_move
    winner := state.winner.getD row.winner }

/-! ### Specification-side definitions used by the claims -/

/-- The board cells strictly between two aligned positions, enumerated from the
smaller coordinate (declarative counterpart of the path scan). -/
def betweenCells (f t : Position) : List Position :=
  if f.y = t.y then
    (List.range ((t.x - f.x).natAbs - 1)).map
      (fun (i : Nat) => (⟨min f.x t.x + 1 + (i : Int), f.y⟩ : Position))
  else if f.x = t.x then
    (List.range ((t.y - f.y).natAbs - 1)).map
      (fun (i : Nat) => (⟨f.x, min f.y t.y + 1 + (i : Int)⟩ : Position))
  else []

/-- Number of occupied cells strictly between two aligned positions. -/
def occupiedBetween (f t : Position) (ps : List Piece) : Nat :=
  (betweenCells f t).countP (fun c => (getPieceAt ps c).isSome)

/-- A piece's immutable identity signature: id, kind and side. -/
def pieceSig (p : Piece) : String × PieceType × Side := (p.id, p.type, p.side)

/-- Look a piece up by its identity. -/
def findById (ps : List Piece) (i : String) : Option Piece :=
  ps.find? (fun p => decide (p.id = i))



/-! ### Concrete fixtures used by counterexamples and witnesses -/

def seatHolderA : PlayerState := { id := "idA", name := "Alice", timeouts := 0, joined := true }

def joinerB : UserProfile := { id := "idB", name := "Bob" }

def playersWithA : GamePlayers := { red := some seatHolderA, black := none, spectators := [] }

def demoCannon : Piece := createPiece "r_cannon_1" PieceType.CANNON Side.RED 1 7

def demoHorse : Piece := createPiece "r_horse_1" PieceType.HORSE Side.RED 1 9

def demoSoldier : Piece := createPiece "r_pawn_1" PieceType.SOLDIER Side.RED 0 6

def demoPayload : OnlinePayload :=
  { pieces := INITIAL_PIECES, turn := Side.RED, last_move := none, history := [],
    winner := none, players := emptyPlayers,
    meta := { last_move_ts := 0, undo_requester := some Side.RED, helper_id := some "spec1" } }

def undoMove1 : Move := { src := ⟨0, 6⟩, dst := ⟨0, 5⟩, capturedId := none, ts := 1 }

def undoMove2 : Move := { src := ⟨0, 3⟩, dst := ⟨0, 4⟩, capturedId := none, ts := 2 }

def demoUndoPayload : OnlinePayload :=
  { pieces := reconstructBoard [undoMove1, undoMove2], turn := Side.RED,
    last_move := some undoMove2, history := [undoMove1, undoMove2], winner := none,
    players := emptyPlayers,
    meta := { last_move_ts := 2, undo_requester := some Side.RED, helper_id := none } }

def redSeat2 : PlayerState := { id := "idR", name := "Rhea", timeouts := 2, joined := true }

def blackSeat0 : PlayerState := { id := "idK", name := "Kay", timeouts := 0, joined := true }

def demoTimeoutPayload : OnlinePayload :=
  { pieces := INITIAL_PIECES, turn := Side.RED, last_move := none, history := [],
    winner := none,
    players := { red := some redSeat2, black := some blackSeat0, spectators := [] },
    meta := { last_move_ts := 0, undo_requester := none, helper_id := none } }

def demoRow : GameRow :=
  { piecesCol := PiecesCol.packed none (some [undoMove1]) none none,
    turn := Side.RED, last_move := none, winner := none }

def ghostMove : Move := { src := ⟨4, 4⟩, dst := ⟨4, 5⟩, capturedId := none, ts := 0 }



/-! ### Helper lemmas: characterizing the linear path scan -/

theorem lpGo_spec (sx sy : Int) (hs : ¬(sx = 0 ∧ sy = 0)) (ps : List Piece) :
    ∀ (n fuel : Nat), n ≤ fuel → ∀ (cx cy : Int),
      lpGo sx sy (cx + (n : Int) * sx) (cy + (n : Int) * sy) ps fuel cx cy
        = some (((List.range n).map
              (fun (i : Nat) => (⟨cx + (i : Int) * sx, cy + (i : Int) * sy⟩ : Position))).countP
            (fun c => (getPieceAt ps c).isSome)) := by
  intro n
  induction n with
  | zero =>
    intro fuel _ cx cy
    cases fuel <;> simp [lpGo]
  | succ n ih =>
    intro fuel hle cx cy
    cases fuel with
    | zero => omega
    | succ m =>
      have hne : ¬(cx = cx + ((n + 1 : Nat) : Int) * sx ∧ cy = cy + ((n + 1 : Nat) : Int) * sy) := by
        rintro ⟨h1, h2⟩
        have hx : ((n + 1 : Nat) : Int) * sx = 0 := by omega
        have hy : ((n + 1 : Nat) : Int) * sy = 0 := by omega
        have hn1 : ((n + 1 : Nat) : Int) ≠ 0 := by positivity
        rcases mul_eq_zero.mp hx with h | h
        · exact hn1 h
        · rcases mul_eq_zero.mp hy with h2 | h2
          · exact hn1 h2
          · exact hs ⟨h, h2⟩
      rw [lpGo, if_neg hne]
      have e1 : cx + ((n + 1 : Nat) : Int) * sx = (cx + sx) + (n : Int) * sx := by
        push_cast; ring
      have e2 : cy + ((n + 1 : Nat) : Int) * sy = (cy + sy) + (n : Int) * sy := by
        push_cast; ring
      rw [e1, e2, ih m (by omega) (cx + sx) (cy + sy)]
      rw [List.range_succ_eq_map, List.map_cons, List.countP_cons, List.map_map]
      have e3 : ((fun (i : Nat) => (⟨cx + (i : Int) * sx, cy + (i : Int) * sy⟩ : Position)) ∘ Nat.succ)
          = fun (i : Nat) => (⟨(cx + sx) + (i : Int) * sx, (cy + sy) + (i : Int) * sy⟩ : Position) := by
        funext i
        simp only [Function.comp_apply, Position.mk.injEq]
        constructor <;> (push_cast; ring)
      rw [e3]
      simp only [Option.map_some', Option.some.injEq, Nat.cast_zero, zero_mul, add_zero]
      omega

theorem countP_map_range_reflect (p : Position → Bool) (n : Nat) (g : Nat → Position) :
    ((List.range n).map g).countP p
      = ((List.range n).map (fun j => g (n - 1 - j))).countP p := by
  induction n generalizing g with
  | zero => simp
  | succ n ih =>
    conv_rhs => rw [List.range_succ_eq_map, List.map_cons, List.countP_cons, List.map_map]
    rw [List.range_succ, List.map_append, List.countP_append]
    have e : ((fun j => g (n + 1 - 1 - j)) ∘ Nat.succ) = fun j => g (n - 1 - j) := by
      funext j
      simp only [Function.comp_apply]
      congr 1
      omega
    rw [e, ← ih g]
    simp [List.countP_cons]

theorem checkLinearPath_aligned (f t : Position) (ps : List Piece)
    (hal : (t.x = f.x ∧ t.y ≠ f.y) ∨ (t.y = f.y ∧ t.x ≠ f.x)) :
    checkLinearPath f t ps = some (occupiedBetween f t ps) := by
  rcases hal with ⟨hx, hy⟩ | ⟨hy, hx⟩
  · rcases lt_or_gt_of_ne hy with hlt | hgt
    · -- vertical, t.y < f.y, step (0, -1)
      have hsx : (t.x - f.x).sign = 0 := by rw [show t.x - f.x = 0 by omega]; rfl
      have hsy : (t.y - f.y).sign = -1 := Int.sign_eq_neg_one_of_neg (by omega)
      have key := lpGo_spec 0 (-1) (by simp) ps ((t.y - f.y).natAbs - 1)
        ((t.x - f.x).natAbs + (t.y - f.y).natAbs) (by omega) f.x (f.y + -1)
      have ex : f.x + ((((t.y - f.y).natAbs - 1 : Nat)) : Int) * 0 = t.x := by omega
      have ey : f.y + -1 + ((((t.y - f.y).natAbs - 1 : Nat)) : Int) * (-1) = t.y := by omega
      rw [ex, ey] at key
      unfold checkLinearPath
      rw [hsx, hsy, add_zero, key]
      unfold occupiedBetween betweenCells
      rw [if_neg (by omega : ¬ f.y = t.y), if_pos (by omega : f.x = t.x)]
      congr 1
      rw [countP_map_range_reflect]
      refine congrArg (List.countP _) (List.map_congr_left ?_)
      intro j hj
      rw [List.mem_range] at hj
      have hmin : min f.y t.y = t.y := min_eq_right (by omega)
      simp only [Position.mk.injEq, hmin]
      constructor <;> omega
    · -- vertical, t.y > f.y, step (0, 1)
      have hsx : (t.x - f.x).sign = 0 := by rw [show t.x - f.x = 0 by omega]; rfl
      have hsy : (t.y - f.y).sign = 1 := Int.sign_eq_one_of_pos (by omega)
      have key := lpGo_spec 0 1 (by simp) ps ((t.y - f.y).natAbs - 1)
        ((t.x - f.x).natAbs + (t.y - f.y).natAbs) (by omega) f.x (f.y + 1)
      have ex : f.x + ((((t.y - f.y).natAbs - 1 : Nat)) : Int) * 0 = t.x := by omega
      have ey : f.y + 1 + ((((t.y - f.y).natAbs - 1 : Nat)) : Int) * 1 = t.y := by omega
      rw [ex, ey] at key
      unfold checkLinearPath
      rw [hsx, hsy, add_zero, key]
      unfold occupiedBetween betweenCells
      rw [if_neg (by omega : ¬ f.y = t.y), if_pos (by omega : f.x = t.x)]
      congr 1
      refine congrArg (List.countP _) (List.map_congr_left ?_)
      intro j hj
      rw [List.mem_range] at hj
      have hmin : min f.y t.y = f.y := min_eq_left (by omega)
      simp only [Position.mk.injEq, hmin]
      constructor <;> omega
  · rcases lt_or_gt_of_ne hx with hlt | hgt
    · -- horizontal, t.x < f.x, step (-1, 0)
      have hsx : (t.x - f.x).sign = -1 := Int.sign_eq_neg_one_of_neg (by omega)
      have hsy : (t.y - f.y).sign = 0 := by rw [show t.y - f.y = 0 by omega]; rfl
      have key := lpGo_spec (-1) 0 (by simp) ps ((t.x - f.x).natAbs - 1)
        ((t.x - f.x).natAbs + (t.y - f.y).natAbs) (by omega) (f.x + -1) f.y
      have ex : f.x + -1 + ((((t.x - f.x).natAbs - 1 : Nat)) : Int) * (-1) = t.x := by omega
      have ey : f.y + ((((t.x - f.x).natAbs - 1 : Nat)) : Int) * 0 = t.y := by omega
      rw [ex, ey] at key
      unfold checkLinearPath
      rw [hsx, hsy, add_zero, key]
      unfold occupiedBetween betweenCells
      rw [if_pos (by omega : f.y = t.y)]
      congr 1
      rw [countP_map_range_reflect]
      refine congrArg (List.countP _) (List.map_congr_left ?_)
      intro j hj
      rw [List.mem_range] at hj
      have hmin : min f.x t.x = t.x := min_eq_right (by omega)
      simp only [Position.mk.injEq, hmin]
      constructor <;> omega
    · -- horizontal, t.x > f.x, step (1, 0)
      have hsx : (t.x - f.x).sign = 1 := Int.sign_eq_one_of_pos (by omega)
      have hsy : (t.y - f.y).sign = 0 := by rw [show t.y - f.y = 0 by omega]; rfl
      have key := lpGo_spec 1 0 (by simp) ps ((t.x - f.x).natAbs - 1)
        ((t.x - f.x).natAbs + (t.y - f.y).natAbs) (by omega) (f.x + 1) f.y
      have ex : f.x + 1 + ((((t.x - f.x).natAbs - 1 : Nat)) : Int) * 1 = t.x := by omega
      have ey : f.y + ((((t.x - f.x).natAbs - 1 : Nat)) : Int) * 0 = t.y := by omega
      rw [ex, ey] at key
      unfold checkLinearPath
      rw [hsx, hsy, add_zero, key]
      unfold occupiedBetween betweenCells
      rw [if_pos (by omega : f.y = t.y)]
      congr 1
      refine congrArg (List.countP _) (List.map_congr_left ?_)
      intro j hj
      rw [List.mem_range] at hj
      have hmin : min f.x t.x = f.x := min_eq_left (by omega)
      simp only [Position.mk.injEq, hmin]
      constructor <;> omega


/-! ### Further helper lemmas -/

theorem listModify_map_sig (l : List Piece) (f : Piece → Piece)
    (hf : ∀ p, pieceSig (f p) = pieceSig p) :
    ∀ i, (listModify l i f).map pieceSig = l.map pieceSig := by
  induction l with
  | nil => intro i; cases i <;> rfl
  | cons a t ih =>
    intro i
    cases i with
    | zero => simp [listModify, hf]
    | succ n => simp [listModify, ih]

theorem applyMove_map_sig (ps : List Piece) (m : Move) :
    (applyMove ps m).map pieceSig = ps.map pieceSig := by
  unfold applyMove
  cases h1 : ps.findIdx? (fun p => !p.dead && decide (p.position = m.src)) with
  | none => rfl
  | some i =>
    dsimp only
    cases hc : m.capturedId with
    | none =>
      dsimp only
      exact listModify_map_sig ps (fun p => { p with position := m.dst }) (fun p => rfl) i
    | some cid =>
      dsimp only
      cases h2 : (listModify ps i (fun p => { p with position := m.dst })).findIdx?
          (fun p => decide (p.id = cid)) with
      | none =>
        exact listModify_map_sig ps (fun p => { p with position := m.dst }) (fun p => rfl) i
      | some j =>
        rw [listModify_map_sig (listModify ps i (fun p => { p with position := m.dst }))
              (fun p => { p with dead := true, position := ⟨-1, -1⟩ }) (fun p => rfl) j,
            listModify_map_sig ps (fun p => { p with position := m.dst }) (fun p => rfl) i]

theorem foldl_applyMove_map_sig (h : List Move) :
    ∀ ps, ((h.foldl applyMove ps).map pieceSig) = ps.map pieceSig := by
  induction h with
  | nil => intro ps; rfl
  | cons m t ih =>
    intro ps
    rw [List.foldl_cons, ih, applyMove_map_sig]

theorem isValidMove_ne (p : Piece) (dest : Position) (ps : List Piece)
    (hv : isValidMove p dest ps = true) : p.position ≠ dest := by
  intro he
  rw [isValidMove] at hv
  rw [he] at hv
  simp at hv

theorem find_id_map (g : Piece → Piece) (hg : ∀ p, (g p).id = p.id) :
    ∀ (ps : List Piece) (x : Piece), x ∈ ps → (ps.map (fun p => p.id)).Nodup →
      (ps.map g).find? (fun q => decide (q.id = x.id)) = some (g x) := by
  intro ps
  induction ps with
  | nil => intro x hx; exact absurd hx (List.not_mem_nil x)
  | cons a tl ih =>
    intro x hx hnd
    rw [List.map_cons] at hnd ⊢
    by_cases hax : a.id = x.id
    · have hxa : x = a := by
        rcases List.mem_cons.mp hx with h | h
        · exact h
        · exfalso
          have : x.id ∈ tl.map (fun p => p.id) := List.mem_map_of_mem _ h
          rw [← hax] at this
          exact (List.nodup_cons.mp hnd).1 this
      subst hxa
      rw [List.find?_cons_of_pos _ (by simp [hg, hax])]
    · rw [List.find?_cons_of_neg _ (by simp [hg, hax])]
      apply ih
      · rcases List.mem_cons.mp hx with h | h
        · exact absurd (congrArg Piece.id h.symm) hax
        · exact h
      · exact (List.nodup_cons.mp hnd).2

theorem nodup_id_inj (ps : List Piece) (hnd : (ps.map (fun p => p.id)).Nodup)
    (x y : Piece) (hx : x ∈ ps) (hy : y ∈ ps) (hid : x.id = y.id) : x = y :=
  List.inj_on_of_nodup_map hnd hx hy hid

/-! ### The claims -/

/-- Claim C1: for every game state with no winner and every move accepted by the
legality check, executeMove relocates the moving piece to the destination, marks
the captured piece (if any) dead at the off-board sentinel, leaves all other
pieces untouched, flips the side to move, appends exactly one entry to the
history, clears the pending undo request and the helper delegation, stamps the
move-clock anchor to now, and assigns the mover as winner if and only if the
captured piece was a General. -/
theorem claim_C1 (st : OnlinePayload) (piece : Piece) (dest : Position) (now : Int)
    (hw : st.winner = none)
    (hmem : piece ∈ st.pieces)
    (hnd : (st.pieces.map (fun p => p.id)).Nodup)
    (hv : isValidMove piece dest st.pieces = true) :
    findById (executeMove st piece dest now).pieces piece.id
      = some { piece with position := dest }
    ∧ (∀ t, getPieceAt st.pieces dest = some t →
        findById (executeMove st piece dest now).pieces t.id
          = some { t with dead := true, position := ⟨-1, -1⟩ })
    ∧ (∀ q ∈ st.pieces, q.id ≠ piece.id →
        (∀ t, getPieceAt st.pieces dest = some t → q.id ≠ t.id) →
        q ∈ (executeMove st piece dest now).pieces)
    ∧ (executeMove st piece dest now).turn = st.turn.opp
    ∧ (executeMove st piece dest now).history
        = st.history ++ [{ src := piece.position, dst := dest,
                           capturedId := (getPieceAt st.pieces dest).map Piece.id, ts := now }]
    ∧ (executeMove st piece dest now).meta.undo_requester = none
    ∧ (executeMove st piece dest now).meta.helper_id = none
    ∧ (executeMove st piece dest now).meta.last_move_ts = now
    ∧ ((executeMove st piece dest now).winner = some st.turn ↔
        (∃ t, getPieceAt st.pieces dest = some t ∧ t.type = PieceType.GENERAL))
    ∧ (∀ t, getPieceAt st.pieces dest = some t → t.type ≠ PieceType.GENERAL →
        (executeMove st piece dest now).winner = none) := by
  have hne := isValidMove_ne piece dest st.pieces hv
  have hpieces : (executeMove st piece dest now).pieces
      = st.pieces.map (fun p =>
          if p.id = piece.id then { p with position := dest }
          else
            match getPieceAt st.pieces dest with
            | some t => if p.id = t.id then { p with dead := true, position := ⟨-1, -1⟩ } else p
            | none => p) := rfl
  have hgF : ∀ pp : Piece,
      (if pp.id = piece.id then { pp with position := dest }
       else
         match getPieceAt st.pieces dest with
         | some t => if pp.id = t.id then { pp with dead := true, position := ⟨-1, -1⟩ } else pp
         | none => pp).id = pp.id := by
    intro pp
    by_cases h1 : pp.id = piece.id
    · simp [h1]
    · cases hgt : getPieceAt st.pieces dest with
      | none => simp [h1, hgt]
      | some t =>
        by_cases h2 : pp.id = t.id
        · rw [if_neg h1]
          simp only [hgt]
          rw [if_pos h2]
        · simp [h1, h2, hgt]
  refine ⟨?_, ?_, ?_, rfl, rfl, rfl, rfl, rfl, ?_, ?_⟩
  · rw [findById, hpieces, find_id_map _ hgF st.pieces piece hmem hnd]
    simp
  · intro t hgt
    have htmem : t ∈ st.pieces := List.mem_of_find?_eq_some hgt
    have htpos : t.position = dest := by
      have := List.find?_some hgt
      simp at this
      exact this.2
    have htne : ¬ (t.id = piece.id) := by
      intro hid
      have := nodup_id_inj st.pieces hnd t piece htmem hmem hid
      rw [← this] at hne
      exact hne htpos
    rw [findById, hpieces, find_id_map _ hgF st.pieces t htmem hnd]
    simp [htne, hgt]
  · intro q hq hq1 hq2
    rw [hpieces]
    have hFq : (if q.id = piece.id then { q with position := dest }
       else
         match getPieceAt st.pieces dest with
         | some t => if q.id = t.id then { q with dead := true, position := ⟨-1, -1⟩ } else q
         | none => q) = q := by
      cases hgt : getPieceAt st.pieces dest with
      | none => simp [hq1, hgt]
      | some t => simp [hq1, hgt, hq2 t hgt]
    have hmm := List.mem_map_of_mem (fun p : Piece =>
          if p.id = piece.id then { p with position := dest }
          else
            match getPieceAt st.pieces dest with
            | some t => if p.id = t.id then { p with dead := true, position := ⟨-1, -1⟩ } else p
            | none => p) hq
    rwa [show (fun p : Piece =>
          if p.id = piece.id then { p with position := dest }
          else
            match getPieceAt st.pieces dest with
            | some t => if p.id = t.id then { p with dead := true, position := ⟨-1, -1⟩ } else p
            | none => p) q = q from hFq] at hmm
  · have hwin : (executeMove st piece dest now).winner
        = if (getPieceAt st.pieces dest).map Piece.type = some PieceType.GENERAL
          then some st.turn else st.winner := rfl
    rw [hwin, hw]
    cases hgt : getPieceAt st.pieces dest with
    | none => simp
    | some t =>
      by_cases h2 : t.type = PieceType.GENERAL <;> simp [h2]
  · intro t hgt hng
    have hwin : (executeMove st piece dest now).winner
        = if (getPieceAt st.pieces dest).map Piece.type = some PieceType.GENERAL
          then some st.turn else st.winner := rfl
    rw [hwin, hw, hgt]
    simp [hng]

/-- Claim C2: for every session state with non-empty history, accepting an undo
pops exactly the last history entry, rebuilds the board as the replay of the
shortened history, flips the side to move back, clears the winner and the
pending-undo marker, and restamps the move-clock anchor to now. -/
theorem claim_C2 (st : OnlinePayload) (now : Int) (hh : st.history ≠ []) :
    (respondToUndo true st now).history = st.history.dropLast
    ∧ (respondToUndo true st now).history.length + 1 = st.history.length
    ∧ (respondToUndo true st now).pieces = reconstructBoard st.history.dropLast
    ∧ (respondToUndo true st now).turn = st.turn.opp
    ∧ (respondToUndo true st now).winner = none
    ∧ (respondToUndo true st now).meta.undo_requester = none
    ∧ (respondToUndo true st now).meta.last_move_ts = now := by
  have hl : 0 < st.history.length := List.length_pos.mpr hh
  refine ⟨rfl, ?_, rfl, rfl, rfl, rfl, rfl⟩
  have : (respondToUndo true st now).history = st.history.dropLast := rfl
  rw [this, List.length_dropLast]
  omega

/-- Claim C3: a timeout increments the timeout counter of the side to move,
declares the opposing side winner exactly when that counter reaches 3, flips the
turn and resets the clock anchor; in particular three consecutive timeouts of
the same side (its counter passing 1 and 2 with no move in between) yield
counter 3, the opposing side as winner, and a turn flip at each of the three
timeout events. -/
theorem claim_C3 (st : OnlinePayload) (now : Int) (r b : PlayerState)
    (hr : st.players.red = some r) (hb : st.players.black = some b)
    (_hw : st.winner = none) :
    ((handleTimeout st now).turn = st.turn.opp
     ∧ (handleTimeout st now).meta.last_move_ts = now)
    ∧ (st.turn = Side.RED →
        ((handleTimeout st now).players.red).map PlayerState.timeouts = some (r.timeouts + 1)
        ∧ (handleTimeout st now).players.black = some b
        ∧ ((handleTimeout st now).winner = some Side.BLACK ↔ 3 ≤ r.timeouts + 1)
        ∧ (r.timeouts + 1 < 3 → (handleTimeout st now).winner = none))
    ∧ (st.turn = Side.BLACK →
        ((handleTimeout st now).players.black).map PlayerState.timeouts = some (b.timeouts + 1)
        ∧ (handleTimeout st now).players.red = some r
        ∧ ((handleTimeout st now).winner = some Side.RED ↔ 3 ≤ b.timeouts + 1)
        ∧ (b.timeouts + 1 < 3 → (handleTimeout st now).winner = none))
    ∧ (∀ (s0 s1 s2 : OnlinePayload) (n0 n1 n2 : Int) (r0 r1 r2 : PlayerState),
        s0.turn = Side.RED → s0.players.red = some r0 → r0.timeouts = 0 →
        s1.turn = Side.RED → s1.players.red = some r1 → r1.timeouts = 1 →
        s2.turn = Side.RED → s2.players.red = some r2 → r2.timeouts = 2 →
        ((handleTimeout s0 n0).turn = Side.BLACK
          ∧ ((handleTimeout s0 n0).players.red).map PlayerState.timeouts = some 1
          ∧ (handleTimeout s0 n0).winner = none)
        ∧ ((handleTimeout s1 n1).turn = Side.BLACK
          ∧ ((handleTimeout s1 n1).players.red).map PlayerState.timeouts = some 2
          ∧ (handleTimeout s1 n1).winner = none)
        ∧ ((handleTimeout s2 n2).turn = Side.BLACK
          ∧ ((handleTimeout s2 n2).players.red).map PlayerState.timeouts = some 3
          ∧ (handleTimeout s2 n2).winner = some Side.BLACK)) := by
  constructor
  · constructor
    · cases ht : st.turn <;> simp [handleTimeout, ht, Side.opp]
    · simp [handleTimeout]
  constructor
  · intro ht
    simp [handleTimeout, ht, hr, hb]
    omega
  constructor
  · intro ht
    simp [handleTimeout, ht, hr, hb]
    omega
  · intro s0 s1 s2 n0 n1 n2 r0 r1 r2 h0t h0r h0c h1t h1r h1c h2t h2r h2c
    refine ⟨⟨?_, ?_, ?_⟩, ⟨?_, ?_, ?_⟩, ⟨?_, ?_, ?_⟩⟩ <;>
      simp [handleTimeout, h0t, h0r, h0c, h1t, h1r, h1c, h2t, h2r, h2c, Side.opp]

/-- Claim C4 counterexample: the raw handleJoinRole of the current App.tsx does
NOT keep a filled seat: when identity B joins the RED seat already held by
identity A, the seat ends up held by B, not A. (The occupancy guard lives in
the lobby UI, which disables the seat button for a different identity.) -/
theorem claim_C4_cex :
    ((handleJoinRole playersWithA joinerB (PlayerRole.player Side.RED)).red).map PlayerState.id
      = some "idB"
    ∧ ¬ ((handleJoinRole playersWithA joinerB (PlayerRole.player Side.RED)).red).map PlayerState.id
      = some "idA" := by
  constructor
  · rfl
  · decide

/-- Claim C4 (amended): behind the UI occupancy gate, which is the only way the
join operation is reachable, a filled seat never changes its occupant identity
(a rejoin of the same identity keeps its id and timeout count), and the gated
join operation is idempotent. -/
theorem claim_C4 (players : GamePlayers) (user : UserProfile) (role : PlayerRole) :
    (∀ r, players.red = some r →
      ((joinSeatGated players user role).red).map PlayerState.id = some r.id)
    ∧ (∀ b, players.black = some b →
      ((joinSeatGated players user role).black).map PlayerState.id = some b.id)
    ∧ joinSeatGated (joinSeatGated players user role) user role
        = joinSeatGated players user role := by
  rcases role with s | _
  · rcases s with _ | _
    · refine ⟨?_, ?_, ?_⟩
      · intro r hr
        by_cases hid : r.id = user.id
        · simp [joinSeatGated, seatTakenByOther, handleJoinRole, hr, hid]
        · simp [joinSeatGated, seatTakenByOther, hr, hid]
      · intro b hb
        rcases hred : players.red with _ | r
        · simp [joinSeatGated, seatTakenByOther, handleJoinRole, hred, hb]
        · by_cases hid : r.id = user.id
          · simp [joinSeatGated, seatTakenByOther, handleJoinRole, hred, hb, hid]
          · simp [joinSeatGated, seatTakenByOther, hred, hb, hid]
      · rcases hred : players.red with _ | r
        · simp [joinSeatGated, seatTakenByOther, handleJoinRole, hred]
        · by_cases hid : r.id = user.id
          · simp [joinSeatGated, seatTakenByOther, handleJoinRole, hred, hid]
          · simp [joinSeatGated, seatTakenByOther, handleJoinRole, hred, hid]
    · refine ⟨?_, ?_, ?_⟩
      · intro r hr
        rcases hblk : players.black with _ | b
        · simp [joinSeatGated, seatTakenByOther, handleJoinRole, hblk, hr]
        · by_cases hid : b.id = user.id
          · simp [joinSeatGated, seatTakenByOther, handleJoinRole, hblk, hr, hid]
          · simp [joinSeatGated, seatTakenByOther, hblk, hr, hid]
      · intro b hb
        by_cases hid : b.id = user.id
        · simp [joinSeatGated, seatTakenByOther, handleJoinRole, hb, hid]
        · simp [joinSeatGated, seatTakenByOther, hb, hid]
      · rcases hblk : players.black with _ | b
        · simp [joinSeatGated, seatTakenByOther, handleJoinRole, hblk]
        · by_cases hid : b.id = user.id
          · simp [joinSeatGated, seatTakenByOther, handleJoinRole, hblk, hid]
          · simp [joinSeatGated, seatTakenByOther, handleJoinRole, hblk, hid]
  · refine ⟨?_, ?_, ?_⟩
    · intro r hr
      by_cases hmem : players.spectators.any (fun s => decide (s.id = user.id))
      · simp [joinSeatGated, seatTakenByOther, handleJoinRole, hmem, hr]
      · simp [joinSeatGated, seatTakenByOther, handleJoinRole, hmem, hr]
    · intro b hb
      by_cases hmem : players.spectators.any (fun s => decide (s.id = user.id))
      · simp [joinSeatGated, seatTakenByOther, handleJoinRole, hmem, hb]
      · simp [joinSeatGated, seatTakenByOther, handleJoinRole, hmem, hb]
    · by_cases hmem : players.spectators.any (fun s => decide (s.id = user.id))
      · simp [joinSeatGated, seatTakenByOther, handleJoinRole, hmem]
      · simp [joinSeatGated, seatTakenByOther, handleJoinRole, hmem]

/-- Claim C5: the pack/merge step preserves every blob field (board, history,
players, meta) that is absent from the partial update, both for the packed
object shape and (for the board) the legacy bare-array shape; in particular an
update carrying only a winner leaves the stored history unchanged and only
touches the winner column. -/
theorem claim_C5 (state : StatePatch) (cur : PiecesCol) (now : Int) :
    (state.pieces = none →
      (∀ b h p m, cur = PiecesCol.packed (some b) h p m →
        (packPiecesColumn state cur now).board = b)
      ∧ (∀ b, cur = PiecesCol.legacy b → (packPiecesColumn state cur now).board = b))
    ∧ (state.history = none → ∀ b h p m, cur = PiecesCol.packed b (some h) p m →
        (packPiecesColumn state cur now).history = h)
    ∧ (state.players = none → ∀ b h p m, cur = PiecesCol.packed b h (some p) m →
        (packPiecesColumn state cur now).players = p)
    ∧ (state.meta = none → ∀ b h p m, cur = PiecesCol.packed b h p (some m) →
        (packPiecesColumn state cur now).meta = m)
    ∧ (∀ (row : GameRow) (w : Option Side) (b : Option (List Piece))
         (h : List Move) (p : Option GamePlayers) (m : Option GameMeta),
        row.piecesCol = PiecesCol.packed b (some h) p m →
        (∃ bb pp mm, (updateGameState { winner := some w } row now).piecesCol
            = PiecesCol.packed bb (some h) pp mm)
        ∧ (updateGameState { winner := some w } row now).winner = w
        ∧ (updateGameState { winner := some w } row now).turn = row.turn
        ∧ (updateGameState { winner := some w } row now).last_move = row.last_move) := by
  refine ⟨?_, ?_, ?_, ?_, ?_⟩
  · intro hp
    constructor
    · intro b h p m hcur
      simp [packPiecesColumn, hcur, hp]
    · intro b hcur
      simp [packPiecesColumn, hcur, hp]
  · intro hp b h p m hcur
    simp [packPiecesColumn, hcur, hp]
  · intro hp b h p m hcur
    simp [packPiecesColumn, hcur, hp]
  · intro hp b h p m hcur
    simp [packPiecesColumn, hcur, hp]
  · intro row w b h p m hcur
    refine ⟨⟨some (packPiecesColumn { winner := some w } row.piecesCol now).board,
            some (packPiecesColumn { winner := some w } row.piecesCol now).players,
            some (packPiecesColumn { winner := some w } row.piecesCol now).meta, ?_⟩, rfl, rfl, rfl⟩
    simp [updateGameState, packPiecesColumn, hcur]

/-- Claim C6: for a Cannon and an aligned in-bounds destination, a move onto an
empty square is legal iff zero occupied cells lie strictly between, and a
capture of an enemy piece is legal iff exactly one occupied cell lies strictly
between; a Chariot move onto an empty or enemy square is legal iff zero
occupied cells lie strictly between. -/
theorem claim_C6 (ps : List Piece) (c : Piece) (dest : Position)
    (hb : isWithinBounds dest = true)
    (hal : (dest.x = c.position.x ∧ dest.y ≠ c.position.y) ∨
           (dest.y = c.position.y ∧ dest.x ≠ c.position.x)) :
    ((c.type = PieceType.CANNON ∧ getPieceAt ps dest = none) →
      (isValidMove c dest ps = true ↔ occupiedBetween c.position dest ps = 0))
    ∧ (∀ t, (c.type = PieceType.CANNON ∧ getPieceAt ps dest = some t ∧ t.side ≠ c.side) →
      (isValidMove c dest ps = true ↔ occupiedBetween c.position dest ps = 1))
    ∧ ((c.type = PieceType.CHARIOT ∧ (∀ t, getPieceAt ps dest = some t → t.side ≠ c.side)) →
      (isValidMove c dest ps = true ↔ occupiedBetween c.position dest ps = 0)) := by
  have hlin := checkLinearPath_aligned c.position dest ps hal
  have hnz : ¬((dest.x - c.position.x).natAbs = 0 ∧ (dest.y - c.position.y).natAbs = 0) := by
    rcases hal with ⟨h1, h2⟩ | ⟨h1, h2⟩ <;> omega
  have halc : ¬((dest.x - c.position.x).natAbs ≠ 0 ∧ (dest.y - c.position.y).natAbs ≠ 0) := by
    rcases hal with ⟨h1, h2⟩ | ⟨h1, h2⟩ <;> omega
  have hA : ¬(dest.x - c.position.x = 0) ∨ ¬(dest.y - c.position.y = 0) := by
    rcases hal with ⟨h1, h2⟩ | ⟨h1, h2⟩ <;> omega
  have hB : dest.x - c.position.x = 0 ∨ dest.y - c.position.y = 0 := by
    rcases hal with ⟨h1, h2⟩ | ⟨h1, h2⟩ <;> omega
  refine ⟨?_, ?_, ?_⟩
  · rintro ⟨htc, hgg⟩
    simp [isValidMove, hb, hgg, hnz, htc, halc, hlin, hA, hB]
  · rintro t ⟨htc, hgg, hts⟩
    simp [isValidMove, hb, hgg, hnz, htc, halc, hlin, hts, hA, hB]
  · rintro ⟨htc, hnf⟩
    rcases hgg : getPieceAt ps dest with _ | t
    · simp [isValidMove, hb, hgg, hnz, htc, halc, hlin, hA, hB]
    · have hts := hnf t hgg
      simp [isValidMove, hb, hgg, hnz, htc, halc, hlin, hts, hA, hB]

/-- Claim C7: a Horse move by (1,2) or (2,1) to an in-bounds destination not
held by a friendly piece is illegal exactly when the orthogonal leg cell
adjacent along the longer axis is occupied by a live piece; that leg cell is
neither the destination nor the diagonal midpoint. -/
theorem claim_C7 (ps : List Piece) (h : Piece) (dest : Position)
    (ht : h.type = PieceType.HORSE)
    (hb : isWithinBounds dest = true)
    (hL : ((dest.x - h.position.x).natAbs = 1 ∧ (dest.y - h.position.y).natAbs = 2) ∨
          ((dest.x - h.position.x).natAbs = 2 ∧ (dest.y - h.position.y).natAbs = 1))
    (hnf : ∀ t, getPieceAt ps dest = some t → t.side ≠ h.side) :
    (isValidMove h dest ps = false ↔ (getPieceAt ps (horseLeg h dest)).isSome = true)
    ∧ horseLeg h dest ≠ dest
    ∧ horseLeg h dest ≠ ⟨h.position.x + (dest.x - h.position.x).sign,
                         h.position.y + (dest.y - h.position.y).sign⟩ := by
  have hnz : ¬((dest.x - h.position.x).natAbs = 0 ∧ (dest.y - h.position.y).natAbs = 0) := by
    rcases hL with ⟨a, b⟩ | ⟨a, b⟩ <;> omega
  refine ⟨?_, ?_, ?_⟩
  · by_cases hocc : (getPieceAt ps (horseLeg h dest)).isSome = true
    · rcases hgg : getPieceAt ps dest with _ | t
      · simp [isValidMove, hb, hgg, hnz, ht, hL, hocc]
      · have hside := hnf t hgg
        simp [isValidMove, hb, hgg, hnz, ht, hL, hocc, hside]
    · rcases hgg : getPieceAt ps dest with _ | t
      · simp [isValidMove, hb, hgg, hnz, ht, hL, hocc]
        omega
      · have hside := hnf t hgg
        simp [isValidMove, hb, hgg, hnz, ht, hL, hocc, hside]
        omega
  · rcases hL with ⟨ha, hb2⟩ | ⟨ha, hb2⟩
    · have hdy : dest.y - h.position.y = 2 ∨ dest.y - h.position.y = -2 := by omega
      intro he
      rw [horseLeg, if_neg (by omega)] at he
      have hy := congrArg Position.y he
      dsimp only at hy
      rcases hdy with hdy | hdy
      · rw [hdy, show ((2 : Int)).sign = 1 from by decide] at hy
        omega
      · rw [hdy, show ((-2 : Int)).sign = -1 from by decide] at hy
        omega
    · have hdx : dest.x - h.position.x = 2 ∨ dest.x - h.position.x = -2 := by omega
      intro he
      rw [horseLeg, if_pos (by omega)] at he
      have hx := congrArg Position.x he
      dsimp only at hx
      rcases hdx with hdx | hdx
      · rw [hdx, show ((2 : Int)).sign = 1 from by decide] at hx
        omega
      · rw [hdx, show ((-2 : Int)).sign = -1 from by decide] at hx
        omega
  · rcases hL with ⟨ha, hb2⟩ | ⟨ha, hb2⟩
    · have hdx : dest.x - h.position.x = 1 ∨ dest.x - h.position.x = -1 := by omega
      intro he
      rw [horseLeg, if_neg (by omega)] at he
      have hx := congrArg Position.x he
      dsimp only at hx
      rcases hdx with hdx | hdx
      · rw [hdx, show ((1 : Int)).sign = 1 from by decide] at hx
        omega
      · rw [hdx, show ((-1 : Int)).sign = -1 from by decide] at hx
        omega
    · have hdy : dest.y - h.position.y = 1 ∨ dest.y - h.position.y = -1 := by omega
      intro he
      rw [horseLeg, if_pos (by omega)] at he
      have hy := congrArg Position.y he
      dsimp only at hy
      rcases hdy with hdy | hdy
      · rw [hdy, show ((1 : Int)).sign = 1 from by decide] at hy
        omega
      · rw [hdy, show ((-1 : Int)).sign = -1 from by decide] at hy
        omega

/-- Claim C8: a Soldier may never step backward; before crossing the river only
the single forward step is legal, and after crossing, sideways single steps are
additionally legal; with the concrete scenario: on the initial board the Red
Soldier at (0,6) may move to (0,5), and from (0,5) the move to (1,5) is
illegal. -/
theorem claim_C8 :
    (∀ (s : Piece) (dest : Position) (ps : List Piece), s.type = PieceType.SOLDIER →
      ((s.side = Side.RED → s.position.y < dest.y → isValidMove s dest ps = false)
       ∧ (s.side = Side.BLACK → dest.y < s.position.y → isValidMove s dest ps = false)))
    ∧ (∀ (s : Piece) (dest : Position) (ps : List Piece),
        s.type = PieceType.SOLDIER → s.side = Side.RED → 5 ≤ s.position.y →
        isWithinBounds dest = true →
        (∀ t, getPieceAt ps dest = some t → t.side ≠ s.side) →
        (isValidMove s dest ps = true ↔
          dest.x = s.position.x ∧ dest.y = s.position.y - 1))
    ∧ (∀ (s : Piece) (dest : Position) (ps : List Piece),
        s.type = PieceType.SOLDIER → s.side = Side.RED → s.position.y ≤ 4 →
        isWithinBounds dest = true →
        (∀ t, getPieceAt ps dest = some t → t.side ≠ s.side) →
        (isValidMove s dest ps = true ↔
          ((dest.y = s.position.y ∧ (dest.x - s.position.x).natAbs = 1) ∨
           (dest.x = s.position.x ∧ dest.y = s.position.y - 1))))
    ∧ (∀ (s : Piece) (dest : Position) (ps : List Piece),
        s.type = PieceType.SOLDIER → s.side = Side.BLACK → s.position.y ≤ 4 →
        isWithinBounds dest = true →
        (∀ t, getPieceAt ps dest = some t → t.side ≠ s.side) →
        (isValidMove s dest ps = true ↔
          dest.x = s.position.x ∧ dest.y = s.position.y + 1))
    ∧ (∀ (s : Piece) (dest : Position) (ps : List Piece),
        s.type = PieceType.SOLDIER → s.side = Side.BLACK → 5 ≤ s.position.y →
        isWithinBounds dest = true →
        (∀ t, getPieceAt ps dest = some t → t.side ≠ s.side) →
        (isValidMove s dest ps = true ↔
          ((dest.y = s.position.y ∧ (dest.x - s.position.x).natAbs = 1) ∨
           (dest.x = s.position.x ∧ dest.y = s.position.y + 1))))
    ∧ isValidMove (createPiece "r_pawn_1" PieceType.SOLDIER Side.RED 0 6) ⟨0, 5⟩
        INITIAL_PIECES = true
    ∧ isValidMove (createPiece "r_pawn_1" PieceType.SOLDIER Side.RED 0 5) ⟨1, 5⟩
        (reconstructBoard [{ src := ⟨0, 6⟩, dst := ⟨0, 5⟩, capturedId := none, ts := 0 }])
        = false := by
  refine ⟨?_, ?_, ?_, ?_, ?_, by decide, by decide⟩
  · intro s dest ps ht
    constructor
    · intro hred hlt
      have h1 : 0 < dest.y - s.position.y := by omega
      simp [isValidMove, ht, hred, h1]
    · intro hblk hlt
      have h1 : dest.y - s.position.y < 0 := by omega
      simp [isValidMove, ht, hblk, h1]
  · intro s dest ps ht hred hpos hb hnf
    have hfr : ∀ x : Piece, getPieceAt ps dest = some x → ¬ x.side = Side.RED := by
      intro x hx
      rw [← hred]
      exact hnf x hx
    by_cases h0 : (dest.x - s.position.x).natAbs = 0 ∧ (dest.y - s.position.y).natAbs = 0
    · simp [isValidMove, hb, hfr, ht, hred, h0]
      omega
    · by_cases h1 : 0 < dest.y - s.position.y
      · simp [isValidMove, hb, hfr, ht, hred, h0, h1]
        omega
      · by_cases h2 : 4 < dest.y
        · simp [isValidMove, hb, hfr, ht, hred, h0, h1, h2]
          first
          | omega
          | (constructor
             · rintro ⟨-, hB, hC⟩
               omega
             · intro hR
               exact ⟨hfr, by omega⟩)
        · simp [isValidMove, hb, hfr, ht, hred, h0, h1, h2]
          first
          | omega
          | (constructor
             · rintro ⟨-, hB, hC⟩
               omega
             · intro hR
               exact ⟨hfr, by omega⟩)
  · intro s dest ps ht hred hpos hb hnf
    have hfr : ∀ x : Piece, getPieceAt ps dest = some x → ¬ x.side = Side.RED := by
      intro x hx
      rw [← hred]
      exact hnf x hx
    by_cases h0 : (dest.x - s.position.x).natAbs = 0 ∧ (dest.y - s.position.y).natAbs = 0
    · simp [isValidMove, hb, hfr, ht, hred, h0]
      omega
    · by_cases h1 : 0 < dest.y - s.position.y
      · simp [isValidMove, hb, hfr, ht, hred, h0, h1]
        omega
      · by_cases h2 : 4 < dest.y
        · simp [isValidMove, hb, hfr, ht, hred, h0, h1, h2]
          omega
        · simp [isValidMove, hb, hfr, ht, hred, h0, h1, h2]
          first
          | omega
          | (constructor
             · rintro ⟨-, hB, hC⟩
               omega
             · intro hR
               exact ⟨hfr, by omega⟩)
  · intro s dest ps ht hblk hpos hb hnf
    have hfr : ∀ x : Piece, getPieceAt ps dest = some x → ¬ x.side = Side.BLACK := by
      intro x hx
      rw [← hblk]
      exact hnf x hx
    by_cases h0 : (dest.x - s.position.x).natAbs = 0 ∧ (dest.y - s.position.y).natAbs = 0
    · simp [isValidMove, hb, hfr, ht, hblk, h0]
      omega
    · by_cases h1 : dest.y - s.position.y < 0
      · simp [isValidMove, hb, hfr, ht, hblk, h0, h1]
        omega
      · by_cases h2 : dest.y < 5
        · simp [isValidMove, hb, hfr, ht, hblk, h0, h1, h2]
          first
          | omega
          | (constructor
             · rintro ⟨-, hB, hC⟩
               omega
             · intro hR
               exact ⟨hfr, by omega⟩)
        · simp [isValidMove, hb, hfr, ht, hblk, h0, h1, h2]
          first
          | omega
          | (constructor
             · rintro ⟨-, hB, hC⟩
               omega
             · intro hR
               exact ⟨hfr, by omega⟩)
  · intro s dest ps ht hblk hpos hb hnf
    have hfr : ∀ x : Piece, getPieceAt ps dest = some x → ¬ x.side = Side.BLACK := by
      intro x hx
      rw [← hblk]
      exact hnf x hx
    by_cases h0 : (dest.x - s.position.x).natAbs = 0 ∧ (dest.y - s.position.y).natAbs = 0
    · simp [isValidMove, hb, hfr, ht, hblk, h0]
      omega
    · by_cases h1 : dest.y - s.position.y < 0
      · simp [isValidMove, hb, hfr, ht, hblk, h0, h1]
        omega
      · by_cases h2 : dest.y < 5
        · simp [isValidMove, hb, hfr, ht, hblk, h0, h1, h2]
          omega
        · simp [isValidMove, hb, hfr, ht, hblk, h0, h1, h2]
          first
          | omega
          | (constructor
             · rintro ⟨-, hB, hC⟩
               omega
             · intro hR
               exact ⟨hfr, by omega⟩)

/-- Claim C9: the legality check is a total function in this embedding, and its
linear path scan, invoked only for row- or column-aligned pairs, terminates
within the fuel bound of the scan length: for aligned in-bounds endpoints it
returns the count of occupied strictly-between cells, of which there are at
most 9. -/
theorem claim_C9 (f t : Position) (ps : List Piece)
    (hf : isWithinBounds f = true) (ht : isWithinBounds t = true)
    (hal : (t.x = f.x ∧ t.y ≠ f.y) ∨ (t.y = f.y ∧ t.x ≠ f.x)) :
    checkLinearPath f t ps = some (occupiedBetween f t ps)
    ∧ (betweenCells f t).length ≤ 9
    ∧ (t.x - f.x).natAbs + (t.y - f.y).natAbs ≤ 9
    ∧ (∀ (piece : Piece), isValidMove piece t ps = true ∨ isValidMove piece t ps = false) := by
  refine ⟨checkLinearPath_aligned f t ps hal, ?_, ?_, fun piece => by cases hv : isValidMove piece t ps <;> simp⟩
  · have hfb : 0 ≤ f.x ∧ f.x ≤ 8 ∧ 0 ≤ f.y ∧ f.y ≤ 9 := by
      simpa [isWithinBounds, and_assoc] using hf
    have htb : 0 ≤ t.x ∧ t.x ≤ 8 ∧ 0 ≤ t.y ∧ t.y ≤ 9 := by
      simpa [isWithinBounds, and_assoc] using ht
    unfold betweenCells
    rcases hal with ⟨h1, h2⟩ | ⟨h1, h2⟩
    · rw [if_neg (by omega), if_pos (by omega)]
      simp only [List.length_map, List.length_range]
      omega
    · rw [if_pos (by omega)]
      simp only [List.length_map, List.length_range]
      omega
  · have hfb : 0 ≤ f.x ∧ f.x ≤ 8 ∧ 0 ≤ f.y ∧ f.y ≤ 9 := by
      simpa [isWithinBounds, and_assoc] using hf
    have htb : 0 ≤ t.x ∧ t.x ≤ 8 ∧ 0 ≤ t.y ∧ t.y ≤ 9 := by
      simpa [isWithinBounds, and_assoc] using ht
    omega

/-- Claim C10: replaying any move history (including corrupted ones) yields
exactly 32 pieces whose identities, kinds and sides are those of the canonical
initial layout in the same order (captured pieces are marked dead, never
deleted), and a move whose recorded source holds no live piece is skipped
without aborting the replay. -/
theorem claim_C10 :
    (∀ history : List Move,
      (reconstructBoard history).length = 32
      ∧ (reconstructBoard history).map pieceSig = INITIAL_PIECES.map pieceSig)
    ∧ (∀ (history : List Move) (m : Move),
        getPieceAt (reconstructBoard history) m.src = none →
        reconstructBoard (history ++ [m]) = reconstructBoard history) := by
  constructor
  · intro history
    have hsig : (reconstructBoard history).map pieceSig = INITIAL_PIECES.map pieceSig :=
      foldl_applyMove_map_sig history INITIAL_PIECES
    refine ⟨?_, hsig⟩
    have := congrArg List.length hsig
    rw [List.length_map, List.length_map] at this
    rw [this]
    rfl
  · intro history m hnone
    rw [reconstructBoard, List.foldl_append, List.foldl_cons, List.foldl_nil]
    show applyMove (reconstructBoard history) m = reconstructBoard history
    unfold applyMove
    have : (reconstructBoard history).findIdx?
        (fun p => !p.dead && decide (p.position = m.src)) = none := by
      rw [List.findIdx?_eq_none_iff]
      intro x hx
      have := List.find?_eq_none.mp hnone x hx
      simpa using this
    rw [this]

/-! ### Witnesses: the claim theorems applied at concrete inputs -/

theorem claim_C1_witness :
    findById (executeMove demoPayload demoCannon ⟨1, 0⟩ 5).pieces "b_horse_1"
      = some { id := "b_horse_1", type := PieceType.HORSE, side := Side.BLACK,
               position := ⟨-1, -1⟩, dead := true }
    ∧ (executeMove demoPayload demoCannon ⟨1, 0⟩ 5).turn = Side.BLACK
    ∧ (executeMove demoPayload demoCannon ⟨1, 0⟩ 5).meta.undo_requester = none
    ∧ (executeMove demoPayload demoCannon ⟨1, 0⟩ 5).winner = none := by
  have h := claim_C1 demoPayload demoCannon ⟨1, 0⟩ 5 rfl (by decide) (by decide) (by decide)
  refine ⟨?_, h.2.2.2.1, h.2.2.2.2.2.1, ?_⟩
  · exact h.2.1 (createPiece "b_horse_1" PieceType.HORSE Side.BLACK 1 0) (by decide)
  · exact h.2.2.2.2.2.2.2.2.2 (createPiece "b_horse_1" PieceType.HORSE Side.BLACK 1 0)
      (by decide) (by decide)

theorem claim_C2_witness :
    (respondToUndo true demoUndoPayload 9).history = demoUndoPayload.history.dropLast
    ∧ (respondToUndo true demoUndoPayload 9).pieces
        = reconstructBoard demoUndoPayload.history.dropLast
    ∧ (respondToUndo true demoUndoPayload 9).turn = demoUndoPayload.turn.opp
    ∧ (respondToUndo true demoUndoPayload 9).winner = none
    ∧ (respondToUndo true demoUndoPayload 9).meta.last_move_ts = 9 := by
  have h := claim_C2 demoUndoPayload 9 (by decide)
  exact ⟨h.1, h.2.2.1, h.2.2.2.1, h.2.2.2.2.1, h.2.2.2.2.2.2⟩

theorem claim_C3_witness :
    (handleTimeout demoTimeoutPayload 7).turn = Side.BLACK
    ∧ ((handleTimeout demoTimeoutPayload 7).players.red).map PlayerState.timeouts = some 3
    ∧ (handleTimeout demoTimeoutPayload 7).winner = some Side.BLACK
    ∧ (handleTimeout demoTimeoutPayload 7).meta.last_move_ts = 7 := by
  have h := claim_C3 demoTimeoutPayload 7 redSeat2 blackSeat0 rfl rfl rfl
  have h2 := h.2.1 rfl
  exact ⟨h.1.1, h2.1, h2.2.2.1.mpr (by decide), h.1.2⟩

theorem claim_C4_witness :
    ((joinSeatGated playersWithA joinerB (PlayerRole.player Side.RED)).red).map PlayerState.id
      = some "idA" :=
  (claim_C4 playersWithA joinerB (PlayerRole.player Side.RED)).1 seatHolderA rfl

theorem claim_C5_witness :
    (updateGameState { winner := some (some Side.RED) } demoRow 3).winner = some Side.RED
    ∧ (∃ bb pp mm, (updateGameState { winner := some (some Side.RED) } demoRow 3).piecesCol
        = PiecesCol.packed bb (some [undoMove1]) pp mm) := by
  have h := (claim_C5 { winner := some (some Side.RED) } demoRow.piecesCol 3).2.2.2.2
      demoRow (some Side.RED) none [undoMove1] none none rfl
  exact ⟨h.2.1, h.1⟩

theorem claim_C6_witness :
    isValidMove demoCannon ⟨1, 0⟩ INITIAL_PIECES = true
    ∧ occupiedBetween demoCannon.position ⟨1, 0⟩ INITIAL_PIECES = 1 := by
  have h := (claim_C6 INITIAL_PIECES demoCannon ⟨1, 0⟩ (by decide) (by decide)).2.1
      (createPiece "b_horse_1" PieceType.HORSE Side.BLACK 1 0) ⟨rfl, by decide, by decide⟩
  exact ⟨h.mpr (by decide), by decide⟩

theorem claim_C7_witness :
    isValidMove demoHorse ⟨3, 8⟩ INITIAL_PIECES = false
      ↔ (getPieceAt INITIAL_PIECES (horseLeg demoHorse ⟨3, 8⟩)).isSome = true :=
  (claim_C7 INITIAL_PIECES demoHorse ⟨3, 8⟩ rfl (by decide) (by decide)
    (fun t h => by
      rw [(by decide : getPieceAt INITIAL_PIECES (⟨3, 8⟩ : Position) = none)] at h
      exact Option.noConfusion h)).1

theorem claim_C8_witness :
    isValidMove demoSoldier ⟨0, 5⟩ INITIAL_PIECES = true
      ↔ (⟨0, 5⟩ : Position).x = demoSoldier.position.x
        ∧ (⟨0, 5⟩ : Position).y = demoSoldier.position.y - 1 :=
  claim_C8.2.1 demoSoldier ⟨0, 5⟩ INITIAL_PIECES rfl rfl (by decide) (by decide)
    (fun t h => by
      rw [(by decide : getPieceAt INITIAL_PIECES (⟨0, 5⟩ : Position) = none)] at h
      exact Option.noConfusion h)

theorem claim_C9_witness :
    checkLinearPath ⟨1, 7⟩ ⟨1, 0⟩ INITIAL_PIECES
      = some (occupiedBetween ⟨1, 7⟩ ⟨1, 0⟩ INITIAL_PIECES) :=
  (claim_C9 ⟨1, 7⟩ ⟨1, 0⟩ INITIAL_PIECES (by decide) (by decide) (by decide)).1

theorem claim_C10_witness :
    reconstructBoard [ghostMove] = reconstructBoard [] :=
  claim_C10.2 [] ghostMove (by decide)

end Xiangqi
